import Mathlib

/-!
Shallow embedding of `src/mini_fastapi.py`: a request-scoped dependency-injection
resolver (`Fastapi._solve_dependencies`, `Fastapi.run_request`) together with the
repository's demo application, and theorems about its resolution, caching and
teardown behaviour.

Modelling conventions:
* Python values flowing between providers are `Value`; a generator object
  created by calling a generator function (without running its body) is
  `Value.vgen id`.
* Python exceptions raised by the framework are `Err`; Python's
  `RecursionError` appears as `Err.recursionError` when the recursion budget
  (`fuel`) of the resolver is exhausted.
* Each provider (a Python callable) is a `Provider`; providers are identified
  by a `Nat` registration id and a `Registry` maps ids to providers.
* Side effects are made explicit: `Event.called id` is logged each time
  `dep_func(**kwargs)` is evaluated, `Event.released id` each time the
  teardown loop of `run_request` resumes a stored generator object.
-/

/-- Python values exchanged between providers.  `vgen id` is the generator
object obtained by calling the generator function with registration id `id`
without running its body.  The demo's dict literals have one or two entries;
they are modelled by the fixed-arity constructors `vdict1` and `vdict2` (a
nested `List (String × Value)` field would lose decidable equality). -/
inductive Value where
  | vstr (s : String)
  | vnat (n : Nat)
  | vnone
  | vgen (id : Nat)
  | vdict1 (key : String) (val : Value)
  | vdict2 (key1 : String) (val1 : Value) (key2 : String) (val2 : Value)
  deriving DecidableEq

/-- Python exceptions that escape the framework code. -/
inductive Err where
  /-- `KeyError` raised by `kwargs_to_pass[name]` at the cache-write line 61
  when the parameter was never added to `kwargs_to_pass` (plain parameters). -/
  | keyError (name : String)
  /-- an exception raised inside the body of the provider (or handler) with
  the given id while it was being invoked. -/
  | providerError (id : Nat)
  /-- an exception raised by the generator of provider `id` while the teardown
  loop resumed it past its `yield`. -/
  | teardownError (id : Nat)
  /-- Python `RecursionError`: the recursion budget is exhausted. -/
  | recursionError
  deriving DecidableEq

/-- Observable side effects of one request. -/
inductive Event where
  /-- `dep_func(**kwargs)` (line 53 or 58) or `endpoint_fun(**kwargs)`
  (line 79) was evaluated for the provider with this id. -/
  | called (id : Nat)
  /-- the teardown loop (line 85) executed `next(gen, None)` on the generator
  stored for the provider with this id. -/
  | released (id : Nat)
  deriving DecidableEq

/-- Lines printed by `run_request` itself (provider prints are not modelled). -/
inductive OutLine where
  | incoming
  | notFound
  | status (v : Value)
  | teardownComplete
  deriving DecidableEq

/-- One formal parameter of a provider, as classified by line 38: `depends`
when its default is a `Depends(...)` marker (naming the provider id of the
dependency), `plain` otherwise. -/
inductive Param where
  | plain (name : String)
  | depends (name : String) (depId : Nat)
  deriving DecidableEq

/-- Decidable equality for `Except`, used to evaluate concrete runs. -/
instance {ε α : Type} [DecidableEq ε] [DecidableEq α] :
    DecidableEq (Except ε α) := fun a b =>
  match a, b with
  | .error e, .error e' =>
      if h : e = e' then .isTrue (by rw [h]) else .isFalse (by simp [h])
  | .error _, .ok _ => .isFalse (by simp)
  | .ok _, .error _ => .isFalse (by simp)
  | .ok v, .ok v' =>
      if h : v = v' then .isTrue (by rw [h]) else .isFalse (by simp [h])

/-- One provider: a Python callable as the resolver sees it.  `params` is
`inspect.signature(func).parameters` classified per line 38.  `isGenerator` is
the value of the test `inspect.isgenerator(dep_func)` at line 52 (note: in
CPython this is `False` for a generator *function*; it is `True` only for an
already-created generator object).  `call` is the result of evaluating
`dep_func(**kwargs)` (line 58): for a plain function it runs the body, for a
generator function it merely creates a generator object without running the
body.  `acquire` is the result of lines 53-54 (create the generator, then
`next(gen)` runs the body to its first `yield`); `release` is the outcome of
resuming the generator past its `yield` (line 85): `.ok ()` when the remainder
of the body completes (Python `StopIteration`, absorbed by `next(gen, None)`),
`.error ()` when it raises. -/
structure Provider where
  params : List Param
  isGenerator : Bool
  call : List (String × Value) → Except Unit Value
  acquire : List (String × Value) → Except Unit Value
  release : Except Unit Unit

/-- Registration ids to providers.  In the source a `Depends` marker holds the
provider function object itself; here it holds the id and the registry is
total (every id a marker can mention denotes a callable). -/
def Registry := Nat → Provider

/-- Per-request state of `run_request`: the dict `request_cache` (provider
identity to resolved value, insertion-ordered association list) and the list
`context_managers` (ids of the providers whose generator objects were stored,
in acquisition order). -/
structure Scope where
  cache : List (Nat × Value)
  teardown : List Nat
  deriving DecidableEq

/-- Lookup in the `request_cache` dict (`dep_func in request_cache`,
`request_cache[dep_func]`, lines 42-43). -/
def cacheLookup : List (Nat × Value) → Nat → Option Value
  | [], _ => none
  | (k, v) :: rest, d => if k = d then some v else cacheLookup rest d

/-- Dict assignment `request_cache[dep_func] = value` (line 61): overwrite the
existing entry for the key, else append a new one. -/
def cacheInsert : List (Nat × Value) → Nat → Value → List (Nat × Value)
  | [], k, v => [(k, v)]
  | (k', v') :: rest, k, v =>
      if k' = k then (k, v) :: rest else (k', v') :: cacheInsert rest k v

/-- Lines 52-61 of `_solve_dependencies`, applied after the recursive
sub-resolution of `dep_func` returned the argument dict `sub`: evaluate the
`inspect.isgenerator` branch, invoke the dependency, append its generator to
`context_managers` in the generator branch, and perform the cache write of
line 61 (for a `Depends` parameter `kwargs_to_pass[name]` is the freshly
resolved value, so the write stores it under the dependency's identity).
Returns the updated scope, the event log and the resolved value (or the
exception the provider raised, line 53-54 or 58). -/
def afterSub (reg : Registry) (depId : Nat) (sc1 : Scope) (log1 : List Event)
    (sub : List (String × Value)) : Scope × List Event × Except Err Value :=
  if (reg depId).isGenerator then
    match (reg depId).acquire sub with
    | .error _ =>
        (sc1, log1 ++ [Event.called depId], .error (.providerError depId))
    | .ok v =>
        ({ cache := cacheInsert sc1.cache depId v,
           teardown := sc1.teardown ++ [depId] },
         log1 ++ [Event.called depId], .ok v)
  else
    match (reg depId).call sub with
    | .error _ =>
        (sc1, log1 ++ [Event.called depId], .error (.providerError depId))
    | .ok v =>
        ({ cache := cacheInsert sc1.cache depId v,
           teardown := sc1.teardown },
         log1 ++ [Event.called depId], .ok v)

/-- The loop of `_solve_dependencies` (lines 37-63) over the remaining
parameters of the current provider, threading `kwargs_to_pass`, the mutable
per-request state (`request_cache`, `context_managers`) and the event log.
The state is returned even when an exception propagates, because the source
mutates the dict and list in place.  The recursive call of line 47 is
abstracted as `recur` (instantiated by `solveLoop` below with the
depth-bounded dive).

Faithfulness notes, keyed to the source:
* a `plain` parameter skips the `if` of line 38, so nothing is added to
  `kwargs_to_pass`; the unconditional cache-write line 61 then evaluates its
  right-hand side `kwargs_to_pass[name]` first and raises `KeyError(name)`;
* a cached dependency (lines 42-44) reuses the cached value and `continue`
  skips the cache-write line;
* an uncached dependency is recursively resolved (line 47) with a fresh
  `kwargs_to_pass`, then handled by `afterSub` (lines 52-61). -/
def solveStep (reg : Registry)
    (recur : List Param → Scope → List Event →
      Scope × List Event × Except Err (List (String × Value))) :
    List Param → List (String × Value) → Scope → List Event →
      Scope × List Event × Except Err (List (String × Value))
  | [], kwargs, sc, log => (sc, log, .ok kwargs)
  | .plain name :: _, _, sc, log => (sc, log, .error (.keyError name))
  | .depends name depId :: rest, kwargs, sc, log =>
    match cacheLookup sc.cache depId with
    | some v => solveStep reg recur rest (kwargs ++ [(name, v)]) sc log
    | none =>
      match recur (reg depId).params sc log with
      | (sc1, log1, .error e) => (sc1, log1, .error e)
      | (sc1, log1, .ok sub) =>
        match afterSub reg depId sc1 log1 sub with
        | (sc2, log2, .error e) => (sc2, log2, .error e)
        | (sc2, log2, .ok v) =>
            solveStep reg recur rest (kwargs ++ [(name, v)]) sc2 log2

/-- `solveLoop reg fuel ps kwargs sc log` runs `solveStep` with the recursive
call of line 47 allowed to nest `fuel` more levels deep; a dive at depth 0 is
Python's `RecursionError`.  Each dive starts the callee's loop with a fresh
empty `kwargs_to_pass` (line 35). -/
def solveLoop (reg : Registry) :
    Nat → List Param → List (String × Value) → Scope → List Event →
      Scope × List Event × Except Err (List (String × Value))
  | 0, ps, kwargs, sc, log =>
      solveStep reg (fun _ sc' log' => (sc', log', .error .recursionError))
        ps kwargs sc log
  | fuel + 1, ps, kwargs, sc, log =>
      solveStep reg (fun ps' sc' log' => solveLoop reg fuel ps' [] sc' log')
        ps kwargs sc log

/-- `_solve_dependencies(endpoint_fun, request_cache, context_managers)` as
called from `run_request` (lines 76-78), starting from the freshly created
empty scope of lines 72-73. -/
def resolvePhase (reg : Registry) (fuel : Nat) (f : Provider) :
    Scope × List Event × Except Err (List (String × Value)) :=
  solveLoop reg fuel f.params [] { cache := [], teardown := [] } []

/-- The body of the `try:` block of `run_request` (lines 76-80): resolve the
handler's dependencies, then call the handler with the solved kwargs.  The
value component is the handler's `response` or the first exception raised. -/
def tryPhase (reg : Registry) (fuel : Nat) (hid : Nat) :
    Scope × List Event × Except Err Value :=
  match resolvePhase reg fuel (reg hid) with
  | (sc, log, .error e) => (sc, log, .error e)
  | (sc, log, .ok kwargs) =>
    match (reg hid).call kwargs with
    | .error _ => (sc, log ++ [Event.called hid], .error (.providerError hid))
    | .ok v => (sc, log ++ [Event.called hid], .ok v)

/-- The `finally:` loop of `run_request` (lines 82-87), given the generators
to resume in the order the loop visits them (`reversed(context_managers)`).
`next(gen, None)` returns `None` on `StopIteration`, so the
`except StopIteration: pass` clause is unreachable; any other exception
raised by a resumed generator propagates out of the loop at once, skipping
the remaining generators.  Returns the ids on which `next` was executed, in
execution order, and the propagating teardown exception if any. -/
def teardownLoop (reg : Registry) : List Nat → List Nat × Option Err
  | [] => ([], none)
  | g :: rest =>
    match (reg g).release with
    | .ok () =>
        let (rs, e) := teardownLoop reg rest
        (g :: rs, e)
    | .error () => ([g], some (.teardownError g))

/-- Routing table of the `Fastapi` instance (`self.routes`, filled by the
`get` decorator).  Keys are paths, values are the registered handler ids. -/
structure App where
  routes : List (String × Nat)

/-- Everything observable about one `run_request` invocation: the lines it
printed, the side effects that occurred (in order), the final per-request
scope (`none` when the 404 early return of line 70 fired before the scope
was created), the ids whose generators the teardown loop resumed, and the
Python-level outcome of the call (`.ok ()`: the function returned `None`;
`.error e`: the exception `e` propagated to the caller). -/
structure RunResult where
  output : List OutLine
  events : List Event
  finalScope : Option Scope
  releasedSeq : List Nat
  result : Except Err Unit
  deriving DecidableEq

/-- `run_request` (lines 65-88).  On a routed path: create the empty scope
(lines 72-73), run the `try:` block, then unconditionally run the teardown
loop; an exception raised during teardown replaces the in-flight exception
(Python `finally` semantics), and `"tear down complete"` (line 88) is printed
only when no exception is propagating.  `run_request` itself returns `None`
on every non-raising path; the handler's response is only printed at line 80. -/
def runRequest (reg : Registry) (app : App) (fuel : Nat) (path : String) :
    RunResult :=
  match app.routes.lookup path with
  | none =>
      { output := [.incoming, .notFound], events := [], finalScope := none,
        releasedSeq := [], result := .ok () }
  | some hid =>
      let t := tryPhase reg fuel hid
      let td := teardownLoop reg t.1.teardown.reverse
      let result : Except Err Unit :=
        match td.2 with
        | some e => .error e
        | none =>
          match t.2.2 with
          | .error e => .error e
          | .ok _ => .ok ()
      { output :=
          [.incoming]
            ++ (match t.2.2 with | .ok v => [.status v] | .error _ => [])
            ++ (match result with | .ok _ => [.teardownComplete] | .error _ => []),
        events := t.2.1 ++ td.1.map .released,
        finalScope := some t.1,
        releasedSeq := td.1,
        result := result }

/-- A sequence of independent requests against the same application: each call
to `run_request` constructs its own scope (lines 72-73); `self.routes` is the
only state shared between requests and it is read-only during a request. -/
def runRequests (reg : Registry) (app : App) (fuel : Nat)
    (paths : List String) : List RunResult :=
  paths.map (runRequest reg app fuel)

/-- Number of times the provider with id `d` was called in an event log. -/
def countCalled : List Event → Nat → Nat
  | [], _ => 0
  | e :: rest, d => (if e = Event.called d then 1 else 0) + countCalled rest d

/-- A callable with no parameters that returns `None`; used for registry ids
that no `Depends` marker of the modelled application mentions (the registry
is a total function). -/
def nullProvider : Provider where
  params := []
  isGenerator := false
  call := fun _ => .ok .vnone
  acquire := fun _ => .error ()
  release := .ok ()

/-- `get_db_connection` (lines 95-101), registration id 0: a generator
function that yields `"postgres connection string"` and then runs its
`finally` block.  Because it is a generator *function* (not a generator
object), `inspect.isgenerator(get_db_connection)` is `False`, so
`isGenerator := false`; calling it directly (line 58) creates a generator
object without running the body, hence `call` returns `vgen 0`.  `acquire`
and `release` describe what lines 53-54 and 85 would do with its generator:
run to the `yield` producing the connection string, resp. finish the
`finally` block normally. -/
def getDbConnection : Provider where
  params := []
  isGenerator := false
  call := fun _ => .ok (.vgen 0)
  acquire := fun _ => .ok (.vstr "postgres connection string")
  release := .ok ()

/-- `get_user_from_db(conn: str = Depends(get_db_connection))`
(lines 104-106), registration id 1: returns the user dict; its body does not
use `conn` beyond printing. -/
def getUserFromDb : Provider where
  params := [.depends "conn" 0]
  isGenerator := false
  call := fun _ => .ok (.vdict2 "username" (.vstr "zoya") "id" (.vnat 100))
  acquire := fun _ => .error ()
  release := .ok ()

/-- `get_current_user_profile(user: dict = Depends(get_user_from_db))`
(lines 109-111), registration id 2: reads `user["username"]` and returns the
profile dict (a `KeyError`/`TypeError` in the body is modelled as
`.error ()`). -/
def getCurrentUserProfile : Provider where
  params := [.depends "user" 1]
  isGenerator := false
  call := fun kwargs =>
    match kwargs.lookup "user" with
    | some (.vdict2 "username" (.vstr u) _ _) =>
        .ok (.vdict1 "profile_data" (.vstr ("Data for " ++ u)))
    | _ => .error ()
  acquire := fun _ => .error ()
  release := .ok ()

/-- The registry of the demo application (lines 92-111). -/
def demoReg : Registry := fun id =>
  match id with
  | 0 => getDbConnection
  | 1 => getUserFromDb
  | 2 => getCurrentUserProfile
  | _ => nullProvider

/-- The demo `Fastapi` instance: `@app.get("/users/me")` registers
`get_current_user_profile` (id 2). -/
def demoApp : App where
  routes := [("/users/me", 2)]

/-- A scoped provider for the chain scenario (spec Scenario B): no
dependencies, yields `"r1"`, releases cleanly.  Its `isGenerator` test is
true, so resolution takes the generator branch of lines 52-56. -/
def chainP1 : Provider where
  params := []
  isGenerator := true
  call := fun _ => .ok (.vgen 1)
  acquire := fun _ => .ok (.vstr "r1")
  release := .ok ()

/-- Scoped provider depending on `chainP1` (id 1); yields `"r2"`. -/
def chainP2 : Provider where
  params := [.depends "p1" 1]
  isGenerator := true
  call := fun _ => .ok (.vgen 2)
  acquire := fun _ => .ok (.vstr "r2")
  release := .ok ()

/-- Handler depending on `chainP2` (id 2). -/
def chainHandler : Provider where
  params := [.depends "p2" 2]
  isGenerator := false
  call := fun _ => .ok .vnone
  acquire := fun _ => .error ()
  release := .ok ()

/-- Registry for the dependency chain handler -> P2 -> P1, both scoped. -/
def chainReg : Registry := fun id =>
  match id with
  | 1 => chainP1
  | 2 => chainP2
  | 3 => chainHandler
  | _ => nullProvider

/-- Application routing `"/b"` to the chain handler (id 3). -/
def chainApp : App where
  routes := [("/b", 3)]

/-- Shared provider `C` of the diamond scenario (spec Scenario C), id 0. -/
def diamondC : Provider where
  params := []
  isGenerator := false
  call := fun _ => .ok (.vstr "shared")
  acquire := fun _ => .error ()
  release := .ok ()

/-- Provider `A` of the diamond, id 1: depends on `C` and returns the value
it received from `C`, so its cached result shows what it was handed. -/
def diamondA : Provider where
  params := [.depends "c" 0]
  isGenerator := false
  call := fun kwargs =>
    match kwargs.lookup "c" with
    | some v => .ok v
    | none => .error ()
  acquire := fun _ => .error ()
  release := .ok ()

/-- Provider `B` of the diamond, id 2: same shape as `A`. -/
def diamondB : Provider where
  params := [.depends "c" 0]
  isGenerator := false
  call := fun kwargs =>
    match kwargs.lookup "c" with
    | some v => .ok v
    | none => .error ()
  acquire := fun _ => .error ()
  release := .ok ()

/-- Diamond handler, id 3: depends on both `A` and `B`. -/
def diamondHandler : Provider where
  params := [.depends "a" 1, .depends "b" 2]
  isGenerator := false
  call := fun _ => .ok .vnone
  acquire := fun _ => .error ()
  release := .ok ()

/-- Registry of the diamond-shaped graph: handler -> A, B; A, B -> C. -/
def diamondReg : Registry := fun id =>
  match id with
  | 0 => diamondC
  | 1 => diamondA
  | 2 => diamondB
  | 3 => diamondHandler
  | _ => nullProvider

/-- Application routing `"/d"` to the diamond handler (id 3). -/
def diamondApp : App where
  routes := [("/d", 3)]

/-- A provider that depends on itself (id 0): the smallest cyclic graph. -/
def selfLoopProvider : Provider where
  params := [.depends "x" 0]
  isGenerator := false
  call := fun _ => .ok .vnone
  acquire := fun _ => .error ()
  release := .ok ()

/-- Handler (id 1) whose single dependency is the self-cyclic provider. -/
def cycHandler : Provider where
  params := [.depends "a" 0]
  isGenerator := false
  call := fun _ => .ok .vnone
  acquire := fun _ => .error ()
  release := .ok ()

/-- Registry containing a dependency cycle (provider 0 depends on itself). -/
def cycReg : Registry := fun id =>
  match id with
  | 0 => selfLoopProvider
  | 1 => cycHandler
  | _ => nullProvider

/-- Application routing `"/c"` to the handler above the cycle. -/
def cycApp : App where
  routes := [("/c", 1)]

/-- A handler (id 0) with one plain parameter `x`: `def handler(x): ...`. -/
def plainHandler : Provider where
  params := [.plain "x"]
  isGenerator := false
  call := fun _ => .ok .vnone
  acquire := fun _ => .error ()
  release := .ok ()

/-- Registry whose handler has a plain (non-`Depends`) parameter. -/
def plainReg : Registry := fun id =>
  match id with
  | 0 => plainHandler
  | _ => nullProvider

/-- Application routing `"/p"` to the plain-parameter handler. -/
def plainApp : App where
  routes := [("/p", 0)]

/-- Scoped provider Q1 (id 1) whose release completes normally. -/
def tdOkProvider : Provider where
  params := []
  isGenerator := true
  call := fun _ => .ok (.vgen 1)
  acquire := fun _ => .ok (.vstr "q1")
  release := .ok ()

/-- Scoped provider Q2 (id 2), acquired after Q1, whose release raises. -/
def tdFailProvider : Provider where
  params := [.depends "q1" 1]
  isGenerator := true
  call := fun _ => .ok (.vgen 2)
  acquire := fun _ => .ok (.vstr "q2")
  release := .error ()

/-- Handler (id 3) over Q2 whose own body raises, so that a provider failure
is already propagating when teardown starts. -/
def tdHandler : Provider where
  params := [.depends "q2" 2]
  isGenerator := false
  call := fun _ => .error ()
  acquire := fun _ => .error ()
  release := .ok ()

/-- Registry for the teardown-failure scenario: acquisition order Q1, Q2;
teardown visits Q2 first and Q2's release raises. -/
def tdReg : Registry := fun id =>
  match id with
  | 1 => tdOkProvider
  | 2 => tdFailProvider
  | 3 => tdHandler
  | _ => nullProvider

/-- Application routing `"/t"` to the teardown-failure handler. -/
def tdApp : App where
  routes := [("/t", 3)]

/-- A handler (id 0) with no dependencies returning the plain value `42`. -/
def answerHandler : Provider where
  params := []
  isGenerator := false
  call := fun _ => .ok (.vnat 42)
  acquire := fun _ => .error ()
  release := .ok ()

/-- Registry whose only interesting provider is `answerHandler`. -/
def answerReg : Registry := fun id =>
  match id with
  | 0 => answerHandler
  | _ => nullProvider

/-- Application routing `"/n"` to `answerHandler`. -/
def answerApp : App where
  routes := [("/n", 0)]

/-- Provider `a` declares a direct dependency on provider `b`: some parameter
of `a` carries `Depends(b)`. -/
def DependsOn (reg : Registry) (a b : Nat) : Prop :=
  ∃ name, Param.depends name b ∈ (reg a).params

/-- Some parameter in `ps` carries a `Depends` marker naming provider `p`. -/
def SiteOf (ps : List Param) (p : Nat) : Prop :=
  ∃ name, Param.depends name p ∈ ps

/-- Provider `d` can come under resolution while the parameter list `ps` is
being solved: a site of `ps` names a provider from which `d` is reachable
along `Depends` edges. -/
def ReachesFrom (reg : Registry) (ps : List Param) (d : Nat) : Prop :=
  ∃ p, SiteOf ps p ∧ Relation.ReflTransGen (DependsOn reg) p d

/-- The dependency graph of the registry has no cycle (the spec's standing
assumption on dependency graphs). -/
def Acyclic (reg : Registry) : Prop :=
  ∀ p, ¬ Relation.TransGen (DependsOn reg) p p

theorem reachesFrom_tail {reg : Registry} {q : Param} {rest : List Param}
    {d : Nat} (h : ReachesFrom reg rest d) : ReachesFrom reg (q :: rest) d :=
  let ⟨p, ⟨nm, hmem⟩, hpath⟩ := h
  ⟨p, ⟨nm, List.mem_cons_of_mem _ hmem⟩, hpath⟩

theorem reachesFrom_site_self {reg : Registry} {name : String} {depId : Nat}
    {rest : List Param} :
    ReachesFrom reg (Param.depends name depId :: rest) depId :=
  ⟨depId, ⟨name, List.mem_cons_self _ _⟩, Relation.ReflTransGen.refl⟩

theorem reachesFrom_dive {reg : Registry} {name : String} {depId : Nat}
    {rest : List Param} {d : Nat}
    (h : ReachesFrom reg (reg depId).params d) :
    ReachesFrom reg (Param.depends name depId :: rest) d :=
  let ⟨_, ⟨nm, hmem⟩, hpath⟩ := h
  ⟨depId, ⟨name, List.mem_cons_self _ _⟩,
    Relation.ReflTransGen.head ⟨nm, hmem⟩ hpath⟩

/-- In an acyclic registry, a provider is not reachable from its own
parameter list. -/
theorem not_reachesFrom_self {reg : Registry} (hA : Acyclic reg) (g : Nat) :
    ¬ ReachesFrom reg (reg g).params g := by
  rintro ⟨q, ⟨nm, hmem⟩, hpath⟩
  exact hA g (Relation.TransGen.head' ⟨nm, hmem⟩ hpath)

/-- A rank function decreasing along `Depends` edges certifies acyclicity. -/
theorem acyclic_of_rank (reg : Registry) (rank : Nat → Nat)
    (hr : ∀ a b, DependsOn reg a b → rank b < rank a) : Acyclic reg := by
  intro p hp
  have key : ∀ a b, Relation.TransGen (DependsOn reg) a b → rank b < rank a := by
    intro a b h
    induction h with
    | single h1 => exact hr _ _ h1
    | tail _ h2 ih => exact lt_trans (hr _ _ h2) ih
  exact absurd (key p p hp) (lt_irrefl _)

theorem countCalled_append (l1 l2 : List Event) (d : Nat) :
    countCalled (l1 ++ l2) d = countCalled l1 d + countCalled l2 d := by
  induction l1 with
  | nil => simp [countCalled]
  | cons e rest ih =>
    simp only [List.cons_append, countCalled, List.append_eq] at ih ⊢
    omega

theorem countCalled_single (depId d : Nat) :
    countCalled [Event.called depId] d = if depId = d then 1 else 0 := by
  simp [countCalled, Event.called.injEq]

theorem cacheLookup_insert_self (c : List (Nat × Value)) (k : Nat) (v : Value) :
    cacheLookup (cacheInsert c k v) k = some v := by
  induction c with
  | nil => simp [cacheInsert, cacheLookup]
  | cons p rest ih =>
    obtain ⟨k', v'⟩ := p
    by_cases h : k' = k
    · simp [cacheInsert, h, cacheLookup]
    · simp [cacheInsert, h, cacheLookup, ih]

theorem cacheLookup_insert_ne (c : List (Nat × Value)) (k d : Nat) (v : Value)
    (h : d ≠ k) : cacheLookup (cacheInsert c k v) d = cacheLookup c d := by
  induction c with
  | nil => simp [cacheInsert, cacheLookup, Ne.symm h]
  | cons p rest ih =>
    obtain ⟨k', v'⟩ := p
    by_cases hk : k' = k
    · subst hk
      simp [cacheInsert, cacheLookup, Ne.symm h]
    · simp only [cacheInsert, if_neg hk, cacheLookup]
      by_cases hd : k' = d
      · simp [hd]
      · simp [hd, ih]

theorem teardownLoop_all_ok (reg : Registry) (gens : List Nat)
    (h : ∀ g ∈ gens, (reg g).release = .ok ()) :
    teardownLoop reg gens = (gens, none) := by
  induction gens with
  | nil => rfl
  | cons g rest ih =>
    have hg := h g (by simp)
    have hrest : ∀ x ∈ rest, (reg x).release = .ok () := fun x hx =>
      h x (by simp [hx])
    simp [teardownLoop, hg, ih hrest]

theorem teardownLoop_fail (reg : Registry) (pre : List Nat) (g : Nat)
    (post : List Nat) (hpre : ∀ x ∈ pre, (reg x).release = .ok ())
    (hg : (reg g).release = .error ()) :
    teardownLoop reg (pre ++ g :: post) = (pre ++ [g], some (.teardownError g)) := by
  induction pre with
  | nil => simp [teardownLoop, hg]
  | cons x rest ih =>
    have hx := hpre x (by simp)
    have hrest : ∀ y ∈ rest, (reg y).release = .ok () := fun y hy =>
      hpre y (by simp [hy])
    simp [teardownLoop, hx, ih hrest]

theorem afterSub_eq_log {reg : Registry} {depId : Nat} {sc1 : Scope}
    {log1 : List Event} {sub : List (String × Value)} {sc2 : Scope}
    {log2 : List Event} {res : Except Err Value}
    (h : afterSub reg depId sc1 log1 sub = (sc2, log2, res)) :
    log2 = log1 ++ [Event.called depId] := by
  unfold afterSub at h
  split at h <;> split at h <;>
    (simp only [Prod.mk.injEq] at h; exact h.2.1.symm)

theorem afterSub_eq_err {reg : Registry} {depId : Nat} {sc1 : Scope}
    {log1 : List Event} {sub : List (String × Value)} {sc2 : Scope}
    {log2 : List Event} {e : Err}
    (h : afterSub reg depId sc1 log1 sub = (sc2, log2, .error e)) :
    sc2 = sc1 := by
  unfold afterSub at h
  split at h <;> split at h <;> simp only [Prod.mk.injEq] at h
  · exact h.1.symm
  · exact absurd h.2.2 (by simp)
  · exact h.1.symm
  · exact absurd h.2.2 (by simp)

theorem afterSub_eq_ok {reg : Registry} {depId : Nat} {sc1 : Scope}
    {log1 : List Event} {sub : List (String × Value)} {sc2 : Scope}
    {log2 : List Event} {v : Value}
    (h : afterSub reg depId sc1 log1 sub = (sc2, log2, .ok v)) :
    sc2.cache = cacheInsert sc1.cache depId v := by
  unfold afterSub at h
  split at h <;> split at h <;> simp only [Prod.mk.injEq] at h
  · exact absurd h.2.2 (by simp)
  · obtain ⟨h1, _, h3⟩ := h
    cases h3
    exact congrArg Scope.cache h1.symm
  · exact absurd h.2.2 (by simp)
  · obtain ⟨h1, _, h3⟩ := h
    cases h3
    exact congrArg Scope.cache h1.symm

theorem solveStep_dep_cached {reg : Registry}
    {recur : List Param → Scope → List Event →
      Scope × List Event × Except Err (List (String × Value))}
    {name : String} {depId : Nat} {rest : List Param}
    {kwargs : List (String × Value)} {sc : Scope} {log : List Event}
    {v : Value} (hC : cacheLookup sc.cache depId = some v) :
    solveStep reg recur (Param.depends name depId :: rest) kwargs sc log =
      solveStep reg recur rest (kwargs ++ [(name, v)]) sc log := by
  simp [solveStep, hC]

theorem solveStep_dep_err {reg : Registry}
    {recur : List Param → Scope → List Event →
      Scope × List Event × Except Err (List (String × Value))}
    {name : String} {depId : Nat} {rest : List Param}
    {kwargs : List (String × Value)} {sc : Scope} {log : List Event}
    {sc1 : Scope} {log1 : List Event} {e : Err}
    (hC : cacheLookup sc.cache depId = none)
    (hR : recur (reg depId).params sc log = (sc1, log1, .error e)) :
    solveStep reg recur (Param.depends name depId :: rest) kwargs sc log =
      (sc1, log1, .error e) := by
  simp [solveStep, hC, hR]

theorem solveStep_dep_ok_err {reg : Registry}
    {recur : List Param → Scope → List Event →
      Scope × List Event × Except Err (List (String × Value))}
    {name : String} {depId : Nat} {rest : List Param}
    {kwargs : List (String × Value)} {sc : Scope} {log : List Event}
    {sc1 : Scope} {log1 : List Event} {sub : List (String × Value)}
    {sc2 : Scope} {log2 : List Event} {e : Err}
    (hC : cacheLookup sc.cache depId = none)
    (hR : recur (reg depId).params sc log = (sc1, log1, .ok sub))
    (hAS : afterSub reg depId sc1 log1 sub = (sc2, log2, .error e)) :
    solveStep reg recur (Param.depends name depId :: rest) kwargs sc log =
      (sc2, log2, .error e) := by
  simp [solveStep, hC, hR, hAS]

theorem solveStep_dep_ok_ok {reg : Registry}
    {recur : List Param → Scope → List Event →
      Scope × List Event × Except Err (List (String × Value))}
    {name : String} {depId : Nat} {rest : List Param}
    {kwargs : List (String × Value)} {sc : Scope} {log : List Event}
    {sc1 : Scope} {log1 : List Event} {sub : List (String × Value)}
    {sc2 : Scope} {log2 : List Event} {v : Value}
    (hC : cacheLookup sc.cache depId = none)
    (hR : recur (reg depId).params sc log = (sc1, log1, .ok sub))
    (hAS : afterSub reg depId sc1 log1 sub = (sc2, log2, .ok v)) :
    solveStep reg recur (Param.depends name depId :: rest) kwargs sc log =
      solveStep reg recur rest (kwargs ++ [(name, v)]) sc2 log2 := by
  simp [solveStep, hC, hR, hAS]

/-- Behavioural invariant of one resolution pass (the recursive dive of
line 47, or a whole frame of the loop): (1) cached entries survive, with
their values, because line 61 only ever writes a key that was absent
(line 42 guards it); (2) a provider is called only if it is reachable along
`Depends` edges from the parameter list being solved; (3) a provider is
called at most once more than before, and not at all if it was already
cached; (4) when the pass succeeds, every provider it called ends up
cached. -/
def DiveSpec (reg : Registry)
    (recur : List Param → Scope → List Event →
      Scope × List Event × Except Err (List (String × Value))) : Prop :=
  ∀ ps sc log,
    (∀ d w, cacheLookup sc.cache d = some w →
      cacheLookup (recur ps sc log).1.cache d = some w) ∧
    (∀ d, countCalled (recur ps sc log).2.1 d > countCalled log d →
      ReachesFrom reg ps d) ∧
    (∀ d, countCalled (recur ps sc log).2.1 d ≤ countCalled log d +
      (if (cacheLookup sc.cache d).isSome then 0 else 1)) ∧
    (∀ d m, (recur ps sc log).2.2 = .ok m →
      countCalled (recur ps sc log).2.1 d > countCalled log d →
      (cacheLookup (recur ps sc log).1.cache d).isSome)

/-- The loop of `_solve_dependencies` preserves the invariant `DiveSpec` of
its recursive dive, for an acyclic registry.  The acyclicity hypothesis is
needed exactly once: between the cache check of line 42 and the invocation of
lines 52-58 the dependency's own sub-resolution runs, and only acyclicity
guarantees that this sub-resolution has not itself invoked (and cached) the
same dependency, which would make the provider run twice. -/
theorem solveStep_spec (reg : Registry) (hA : Acyclic reg)
    (recur : List Param → Scope → List Event →
      Scope × List Event × Except Err (List (String × Value)))
    (hD : DiveSpec reg recur) :
    ∀ ps kwargs sc log,
      (∀ d w, cacheLookup sc.cache d = some w →
        cacheLookup (solveStep reg recur ps kwargs sc log).1.cache d = some w) ∧
      (∀ d, countCalled (solveStep reg recur ps kwargs sc log).2.1 d >
          countCalled log d → ReachesFrom reg ps d) ∧
      (∀ d, countCalled (solveStep reg recur ps kwargs sc log).2.1 d ≤
          countCalled log d +
            (if (cacheLookup sc.cache d).isSome then 0 else 1)) ∧
      (∀ d m, (solveStep reg recur ps kwargs sc log).2.2 = .ok m →
          countCalled (solveStep reg recur ps kwargs sc log).2.1 d >
            countCalled log d →
          (cacheLookup (solveStep reg recur ps kwargs sc log).1.cache d).isSome) := by
  intro ps
  induction ps with
  | nil =>
    intro kwargs sc log
    refine ⟨?_, ?_, ?_, ?_⟩
    · intro d w h
      simpa [solveStep] using h
    · intro d h
      simp [solveStep] at h
    · intro d
      simp only [solveStep]
      exact Nat.le_add_right _ _
    · intro d m _ hgt
      simp [solveStep] at hgt
  | cons p rest ih =>
    intro kwargs sc log
    cases p with
    | plain name =>
      refine ⟨?_, ?_, ?_, ?_⟩
      · intro d w h
        simpa [solveStep] using h
      · intro d h
        simp [solveStep] at h
      · intro d
        simp only [solveStep]
        exact Nat.le_add_right _ _
      · intro d m hok _
        simp [solveStep] at hok
    | depends name depId =>
      cases hC : cacheLookup sc.cache depId with
      | some v =>
        rw [solveStep_dep_cached hC]
        obtain ⟨i1, i2, i3, i4⟩ := ih (kwargs ++ [(name, v)]) sc log
        exact ⟨i1, fun d h => reachesFrom_tail (i2 d h), i3, i4⟩
      | none =>
        rcases hR : recur (reg depId).params sc log with ⟨sc1, log1, res1⟩
        obtain ⟨D1, D2, D3, D4⟩ := hD (reg depId).params sc log
        rw [hR] at D1 D2 D3 D4
        simp only [] at D1 D2 D3 D4
        cases res1 with
        | error e =>
          rw [solveStep_dep_err hC hR]
          refine ⟨D1, ?_, D3, ?_⟩
          · intro d h
            exact reachesFrom_dive (D2 d h)
          · intro d m hok
            simp at hok
        | ok sub =>
          rcases hAS : afterSub reg depId sc1 log1 sub with ⟨sc2, log2, res2⟩
          have hcnt2 : ∀ d, countCalled log2 d =
              countCalled log1 d + (if depId = d then 1 else 0) := by
            intro d
            rw [afterSub_eq_log hAS, countCalled_append, countCalled_single]
          have hnodep : countCalled log1 depId ≤ countCalled log depId := by
            by_contra hgt
            push_neg at hgt
            exact not_reachesFrom_self hA depId (D2 depId hgt)
          cases res2 with
          | error e =>
            have hsc2 : sc2 = sc1 := afterSub_eq_err hAS
            rw [solveStep_dep_ok_err hC hR hAS]
            refine ⟨?_, ?_, ?_, ?_⟩
            · intro d w h
              rw [hsc2]
              exact D1 d w h
            · intro d h
              simp only [] at h
              rw [hcnt2 d] at h
              by_cases hd : depId = d
              · subst hd
                exact reachesFrom_site_self
              · simp [hd] at h
                exact reachesFrom_dive (D2 d h)
            · intro d
              simp only []
              rw [hcnt2 d]
              by_cases hd : depId = d
              · subst hd
                simp only [hC, Option.isSome_none, Bool.false_eq_true,
                  if_false, if_true, eq_self_iff_true]
                omega
              · have hb := D3 d
                simp [hd]
                omega
            · intro d m hok
              simp at hok
          | ok v =>
            have hcache2 : sc2.cache = cacheInsert sc1.cache depId v :=
              afterSub_eq_ok hAS
            rw [solveStep_dep_ok_ok hC hR hAS]
            obtain ⟨i1, i2, i3, i4⟩ := ih (kwargs ++ [(name, v)]) sc2 log2
            have hself : cacheLookup sc2.cache depId = some v := by
              rw [hcache2]
              exact cacheLookup_insert_self _ _ _
            have hpres : ∀ d w, d ≠ depId →
                cacheLookup sc1.cache d = some w →
                cacheLookup sc2.cache d = some w := by
              intro d w hd h
              rw [hcache2, cacheLookup_insert_ne _ _ _ _ hd]
              exact h
            refine ⟨?_, ?_, ?_, ?_⟩
            · intro d w h
              have hd : d ≠ depId := by
                intro hEq
                rw [hEq, hC] at h
                exact absurd h (by simp)
              exact i1 d w (hpres d w hd (D1 d w h))
            · intro d h
              by_cases h2 : countCalled
                  (solveStep reg recur rest (kwargs ++ [(name, v)]) sc2 log2).2.1 d >
                  countCalled log2 d
              · exact reachesFrom_tail (i2 d h2)
              · push_neg at h2
                have h3 : countCalled log2 d > countCalled log d :=
                  lt_of_lt_of_le h h2
                rw [hcnt2 d] at h3
                by_cases hd : depId = d
                · subst hd
                  exact reachesFrom_site_self
                · simp [hd] at h3
                  exact reachesFrom_dive (D2 d h3)
            · intro d
              by_cases hd : depId = d
              · subst hd
                have hb := i3 depId
                rw [hcnt2 depId] at hb
                simp only [hself, Option.isSome_some, if_true,
                  eq_self_iff_true, Nat.add_zero] at hb
                simp only [hC, Option.isSome_none, Bool.false_eq_true,
                  if_false]
                omega
              · have hb := i3 d
                rw [hcnt2 d, if_neg hd] at hb
                cases hsc : cacheLookup sc.cache d with
                | some w =>
                  have hw1 : cacheLookup sc1.cache d = some w := D1 d w hsc
                  have hw2 : cacheLookup sc2.cache d = some w :=
                    hpres d w (fun hEq => hd hEq.symm) hw1
                  have hb1 := D3 d
                  rw [hsc] at hb1
                  rw [hw2] at hb
                  simp only [Option.isSome_some, if_true, Nat.add_zero,
                    eq_self_iff_true] at hb hb1 ⊢
                  omega
                | none =>
                  have hb1 := D3 d
                  rw [hsc] at hb1
                  simp only [Option.isSome_none, Bool.false_eq_true,
                    if_false] at hb1 ⊢
                  by_cases hcall : countCalled log1 d > countCalled log d
                  · have hcached : (cacheLookup sc1.cache d).isSome :=
                      D4 d sub rfl hcall
                    obtain ⟨w, hw⟩ := Option.isSome_iff_exists.mp hcached
                    have hw2 : cacheLookup sc2.cache d = some w :=
                      hpres d w (fun hEq => hd hEq.symm) hw
                    rw [hw2] at hb
                    simp only [Option.isSome_some, if_true, Nat.add_zero,
                      eq_self_iff_true] at hb
                    omega
                  · push_neg at hcall
                    have hstep : countCalled
                        (solveStep reg recur rest
                          (kwargs ++ [(name, v)]) sc2 log2).2.1 d ≤
                        countCalled log1 d + 1 := by
                      cases hite : cacheLookup sc2.cache d with
                      | some w =>
                        rw [hite] at hb
                        simp only [Option.isSome_some, if_true,
                          Nat.add_zero, eq_self_iff_true] at hb
                        omega
                      | none =>
                        rw [hite] at hb
                        simp only [Option.isSome_none, Bool.false_eq_true,
                          if_false] at hb
                        omega
                    omega
            · intro d m hok hgt
              by_cases h2 : countCalled
                  (solveStep reg recur rest (kwargs ++ [(name, v)]) sc2 log2).2.1 d >
                  countCalled log2 d
              · exact i4 d m hok h2
              · push_neg at h2
                have h3 : countCalled log2 d > countCalled log d :=
                  lt_of_lt_of_le hgt h2
                rw [hcnt2 d] at h3
                by_cases hd : depId = d
                · subst hd
                  have := i1 depId v hself
                  simp [this]
                · simp [hd] at h3
                  have hcached : (cacheLookup sc1.cache d).isSome :=
                    D4 d sub rfl h3
                  obtain ⟨w, hw⟩ := Option.isSome_iff_exists.mp hcached
                  have hw2 : cacheLookup sc2.cache d = some w :=
                    hpres d w (fun hEq => hd hEq.symm) hw
                  have := i1 d w hw2
                  simp [this]

/-- The depth-bounded resolver `solveLoop` satisfies the resolution
invariant at every recursion budget (for an acyclic registry). -/
theorem solveLoop_spec (reg : Registry) (hA : Acyclic reg) :
    ∀ fuel ps kwargs sc log,
      (∀ d w, cacheLookup sc.cache d = some w →
        cacheLookup (solveLoop reg fuel ps kwargs sc log).1.cache d = some w) ∧
      (∀ d, countCalled (solveLoop reg fuel ps kwargs sc log).2.1 d >
          countCalled log d → ReachesFrom reg ps d) ∧
      (∀ d, countCalled (solveLoop reg fuel ps kwargs sc log).2.1 d ≤
          countCalled log d +
            (if (cacheLookup sc.cache d).isSome then 0 else 1)) ∧
      (∀ d m, (solveLoop reg fuel ps kwargs sc log).2.2 = .ok m →
          countCalled (solveLoop reg fuel ps kwargs sc log).2.1 d >
            countCalled log d →
          (cacheLookup (solveLoop reg fuel ps kwargs sc log).1.cache d).isSome) := by
  intro fuel
  induction fuel with
  | zero =>
    have hD0 : DiveSpec reg
        (fun _ sc' log' => (sc', log', .error .recursionError)) := by
      intro ps sc log
      refine ⟨fun d w h => h, ?_, ?_, ?_⟩
      · intro d h
        simp at h
      · intro d
        exact Nat.le_add_right _ _
      · intro d m hok
        simp at hok
    exact solveStep_spec reg hA _ hD0
  | succ fuel ihf =>
    have hDs : DiveSpec reg
        (fun ps' sc' log' => solveLoop reg fuel ps' [] sc' log') := by
      intro ps sc log
      exact ihf ps [] sc log
    exact solveStep_spec reg hA _ hDs

/-- A frame of the loop succeeds only if none of its parameters is plain:
a plain parameter always aborts the frame with the `KeyError` of line 61. -/
theorem solveStep_ok_no_plain (reg : Registry)
    (recur : List Param → Scope → List Event →
      Scope × List Event × Except Err (List (String × Value))) :
    ∀ ps kwargs sc log m,
      (solveStep reg recur ps kwargs sc log).2.2 = .ok m →
      ∀ name, Param.plain name ∉ ps := by
  intro ps
  induction ps with
  | nil =>
    intro kwargs sc log m _ name
    exact List.not_mem_nil _
  | cons p rest ih =>
    intro kwargs sc log m hok name hmem
    cases p with
    | plain nm =>
      simp [solveStep] at hok
    | depends nm depId =>
      have hrest : Param.plain name ∈ rest := by
        rcases List.mem_cons.mp hmem with h | h
        · exact absurd h (by simp)
        · exact h
      cases hC : cacheLookup sc.cache depId with
      | some v =>
        rw [solveStep_dep_cached hC] at hok
        exact ih _ _ _ _ hok name hrest
      | none =>
        rcases hR : recur (reg depId).params sc log with ⟨sc1, log1, res1⟩
        cases res1 with
        | error e =>
          rw [solveStep_dep_err hC hR] at hok
          simp at hok
        | ok sub =>
          rcases hAS : afterSub reg depId sc1 log1 sub with ⟨sc2, log2, res2⟩
          cases res2 with
          | error e =>
            rw [solveStep_dep_ok_err hC hR hAS] at hok
            simp at hok
          | ok v =>
            rw [solveStep_dep_ok_ok hC hR hAS] at hok
            exact ih _ _ _ _ hok name hrest

/-- `solveLoop` version of `solveStep_ok_no_plain`: a successful resolution
never silently skipped a plain parameter. -/
theorem solveLoop_ok_no_plain (reg : Registry) :
    ∀ fuel ps kwargs sc log m,
      (solveLoop reg fuel ps kwargs sc log).2.2 = .ok m →
      ∀ name, Param.plain name ∉ ps := by
  intro fuel
  cases fuel with
  | zero => exact solveStep_ok_no_plain reg _
  | succ n => exact solveStep_ok_no_plain reg _

/-- Resolving the parameter list of the self-dependent provider of `cycReg`
exhausts any recursion budget without ever caching or calling anything: the
cache check of line 42 never hits, so the dive of line 47 re-enters the same
parameter list until the budget runs out. -/
theorem solveLoop_self_cycle : ∀ fuel kwargs sc log,
    cacheLookup sc.cache 0 = none →
    solveLoop cycReg fuel [Param.depends "x" 0] kwargs sc log =
      (sc, log, .error .recursionError) := by
  intro fuel
  induction fuel with
  | zero =>
    intro kwargs sc log hC
    exact solveStep_dep_err hC rfl
  | succ n ih =>
    intro kwargs sc log hC
    have hdive : solveLoop cycReg n (cycReg 0).params [] sc log =
        (sc, log, .error .recursionError) := ih [] sc log hC
    exact solveStep_dep_err hC hdive

/-- Resolution of the handler above the cycle fails with `RecursionError`
for every recursion budget. -/
theorem resolvePhase_cyc : ∀ fuel,
    resolvePhase cycReg fuel (cycReg 1) =
      ({ cache := [], teardown := [] }, [], .error .recursionError) := by
  intro fuel
  cases fuel with
  | zero => rfl
  | succ n =>
    show solveStep cycReg (fun ps' sc' log' => solveLoop cycReg n ps' [] sc' log')
        (Param.depends "a" 0 :: []) [] { cache := [], teardown := [] } [] =
      ({ cache := [], teardown := [] }, [], .error .recursionError)
    have hdive : solveLoop cycReg n (cycReg 0).params []
        { cache := [], teardown := [] } [] =
        ({ cache := [], teardown := [] }, [], .error .recursionError) :=
      solveLoop_self_cycle n [] { cache := [], teardown := [] } [] rfl
    have hC : cacheLookup (Scope.mk [] []).cache 0 = none := rfl
    exact solveStep_dep_err hC hdive

/-- Rank function certifying that the diamond registry is acyclic. -/
def diamondRank : Nat → Nat
  | 0 => 0
  | 1 => 1
  | 2 => 1
  | 3 => 2
  | _ => 0

/-- The diamond-shaped graph (handler -> A, B -> C) has no cycle. -/
theorem diamondReg_acyclic : Acyclic diamondReg := by
  apply acyclic_of_rank diamondReg diamondRank
  intro a b hab
  obtain ⟨nm, hmem⟩ := hab
  rcases a with _ | _ | _ | _ | a
  · simp [diamondReg, diamondC] at hmem
  · simp only [diamondReg, diamondA] at hmem
    rcases List.mem_singleton.mp hmem with h
    rcases Param.depends.injEq .. ▸ h with ⟨_, rfl⟩
    decide
  · simp only [diamondReg, diamondB] at hmem
    rcases List.mem_singleton.mp hmem with h
    rcases Param.depends.injEq .. ▸ h with ⟨_, rfl⟩
    decide
  · simp only [diamondReg, diamondHandler] at hmem
    rcases List.mem_cons.mp hmem with h | h
    · rcases Param.depends.injEq .. ▸ h with ⟨_, rfl⟩
      decide
    · rcases List.mem_singleton.mp h with h2
      rcases Param.depends.injEq .. ▸ h2 with ⟨_, rfl⟩
      decide
  · simp [diamondReg, nullProvider] at hmem

/-- C1 (code bug): the claim says a scoped (generator-based) provider is
advanced to its first yielded value, that value is passed to dependents, and
its pending release is appended to the teardown list.  The code tests
`inspect.isgenerator(dep_func)` (line 52), which is `False` for a generator
*function*, so the repository's own demo takes the direct branch instead: the
dependent of `get_db_connection` receives the un-advanced generator object
(`vgen 0`) rather than the yielded `"postgres connection string"`, nothing is
appended to `context_managers`, and no release ever runs. -/
theorem c1_generator_provider_not_advanced :
    (runRequest demoReg demoApp 10 "/users/me").finalScope =
      some (Scope.mk
        [(0, Value.vgen 0),
         (1, Value.vdict2 "username" (.vstr "zoya") "id" (.vnat 100))]
        []) ∧
    (runRequest demoReg demoApp 10 "/users/me").releasedSeq = [] ∧
    (runRequest demoReg demoApp 10 "/users/me").events =
      [.called 0, .called 1, .called 2] ∧
    (runRequest demoReg demoApp 10 "/users/me").result = .ok () :=
  ⟨by decide, by decide, by decide, by decide⟩

/-- C2 (confirmed): on every exit path of `run_request` on a routed path —
success, handler failure, or a provider failure partway through resolution —
and provided the recorded release actions themselves complete normally, every
teardown action recorded in the scope is run, in exact reverse of acquisition
order; the teardown events come after all resolution/invocation events, and
the outcome reported to the caller is exactly the try-phase outcome (so any
failure is reported only after teardown has completed). -/
theorem c2_teardown_runs_all_in_reverse (reg : Registry) (app : App)
    (fuel : Nat) (path : String) (hid : Nat)
    (hroute : app.routes.lookup path = some hid)
    (hrel : ∀ g ∈ (tryPhase reg fuel hid).1.teardown,
      (reg g).release = .ok ()) :
    (runRequest reg app fuel path).releasedSeq =
      (tryPhase reg fuel hid).1.teardown.reverse ∧
    (runRequest reg app fuel path).events =
      (tryPhase reg fuel hid).2.1 ++
        ((tryPhase reg fuel hid).1.teardown.reverse).map Event.released ∧
    (runRequest reg app fuel path).result =
      (match (tryPhase reg fuel hid).2.2 with
        | .ok _ => Except.ok ()
        | .error e => Except.error e) := by
  have hrev : ∀ g ∈ (tryPhase reg fuel hid).1.teardown.reverse,
      (reg g).release = .ok () := by
    intro g hg
    exact hrel g (List.mem_reverse.mp hg)
  have hTD := teardownLoop_all_ok reg _ hrev
  simp only [runRequest, hroute, hTD]
  refine ⟨trivial, trivial, ?_⟩
  cases htry : (tryPhase reg fuel hid).2.2 <;> simp [htry]

/-- C2 witness: the chain scenario (handler -> P2 -> P1, both scoped):
acquisition order is P1 (id 1) then P2 (id 2); teardown runs P2 then P1 and
the request succeeds. -/
theorem c2_teardown_runs_all_in_reverse_witness :
    (runRequest chainReg chainApp 10 "/b").releasedSeq = [2, 1] ∧
    (runRequest chainReg chainApp 10 "/b").result = .ok () := by
  have h := c2_teardown_runs_all_in_reverse chainReg chainApp 10 "/b" 3
    (by decide) (by decide)
  refine ⟨?_, ?_⟩
  · rw [h.1]
    decide
  · rw [h.2.2]
    decide

/-- C3 (confirmed): for an acyclic registry, dependency resolution calls each
provider at most once per request, no matter how many other providers depend
on it; and in the concrete diamond (A and B both depend on shared C), C is
called exactly once in the whole request and A and B both received (and
therefore cached) the same resolved value `"shared"` from C. -/
theorem c3_provider_called_at_most_once :
    (∀ reg : Registry, Acyclic reg → ∀ fuel f d,
      countCalled (resolvePhase reg fuel f).2.1 d ≤ 1) ∧
    (countCalled (runRequest diamondReg diamondApp 10 "/d").events 0 = 1 ∧
     (runRequest diamondReg diamondApp 10 "/d").finalScope =
       some (Scope.mk
         [(0, .vstr "shared"), (1, .vstr "shared"), (2, .vstr "shared")]
         [])) := by
  refine ⟨?_, by decide, by decide⟩
  intro reg hA fuel f d
  have h := (solveLoop_spec reg hA fuel f.params []
    { cache := [], teardown := [] } []).2.2.1 d
  simpa [resolvePhase, countCalled, cacheLookup] using h

/-- C3 witness: the diamond registry is acyclic (certified by a rank
function), so the at-most-once theorem applies to it; the shared provider C
(id 0) is called at most once while resolving the diamond handler. -/
theorem c3_provider_called_at_most_once_witness :
    countCalled (resolvePhase diamondReg 10 diamondHandler).2.1 0 ≤ 1 :=
  c3_provider_called_at_most_once.1 diamondReg diamondReg_acyclic 10
    diamondHandler 0

set_option maxRecDepth 4000 in
/-- C4 counterexample: the claim says a cycle is detected and resolution
fails with a configuration error instead of recursing without bound.  On the
self-cyclic registry the code performs no detection: the outcome is Python's
`RecursionError` (exhaustion of the recursion budget), here at budgets 50 and
200 alike — larger budgets only recurse further before failing the same way. -/
theorem c4_cycle_not_detected_counterexample :
    (runRequest cycReg cycApp 50 "/c").result = .error .recursionError ∧
    (runRequest cycReg cycApp 200 "/c").result = .error .recursionError :=
  ⟨by decide, by decide⟩

/-- C4 (corrected): on a dependency graph with a cycle the resolver does not
detect the re-entrant resolution; for every recursion budget it recurses
until the budget is exhausted and the request fails with `RecursionError`
(never a configuration error), with nothing resolved, called, or released. -/
theorem c4_cycle_recursion_unbounded : ∀ fuel,
    (runRequest cycReg cycApp fuel "/c").result = .error .recursionError ∧
    (runRequest cycReg cycApp fuel "/c").events = [] ∧
    (runRequest cycReg cycApp fuel "/c").releasedSeq = [] := by
  intro fuel
  have hres := resolvePhase_cyc fuel
  have hroute : cycApp.routes.lookup "/c" = some 1 := rfl
  have htry : tryPhase cycReg fuel 1 =
      ({ cache := [], teardown := [] }, [], .error .recursionError) := by
    simp only [tryPhase, hres]
  simp [runRequest, hroute, htry, teardownLoop]

/-- C5 (code bug): the claim (and the spec's stated intent) is that plain
parameters are passed through unresolved and never written to the dependency
cache.  In the code the cache-write line 61 runs for every parameter; for a
plain parameter its right-hand side `kwargs_to_pass[name]` raises
`KeyError(name)`, so a request whose handler has one plain parameter `x`
fails at resolution with `KeyError("x")` instead of passing the parameter
through (the spec's design notes flag exactly this latent defect). -/
theorem c5_plain_parameter_cache_write_keyerror :
    runRequest plainReg plainApp 10 "/p" =
      { output := [.incoming],
        events := [],
        finalScope := some { cache := [], teardown := [] },
        releasedSeq := [],
        result := .error (.keyError "x") } := by decide

/-- C6 counterexample: with acquisition order Q1 (id 1) then Q2 (id 2), a
handler failure in flight, and Q2's release raising, the teardown loop
executes only Q2's release — Q1's recorded teardown never runs — and the
teardown exception replaces the handler's provider failure as the error the
caller sees.  This contradicts the claim that a teardown failure is swallowed,
the remaining teardown actions still run, and a prior provider failure stays
the primary reported error. -/
theorem c6_teardown_failure_counterexample :
    runRequest tdReg tdApp 10 "/t" =
      { output := [.incoming],
        events := [.called 1, .called 2, .called 3, .released 2],
        finalScope := some { cache := [(1, .vstr "q1"), (2, .vstr "q2")],
                             teardown := [1, 2] },
        releasedSeq := [2],
        result := .error (.teardownError 2) } := by decide

/-- C6 (corrected): a release action that raises during the teardown phase
propagates out of the `finally:` loop at once: the releases before it (in
teardown order) have run, the remaining recorded teardown actions are
skipped, and the teardown exception replaces whatever failure was in flight
as the single error reported to the caller.  Only generator exhaustion
(`StopIteration`) is tolerated during teardown. -/
theorem c6_teardown_failure_aborts_rest (reg : Registry) (app : App)
    (fuel : Nat) (path : String) (hid g : Nat) (pre post : List Nat)
    (hroute : app.routes.lookup path = some hid)
    (hsplit : (tryPhase reg fuel hid).1.teardown.reverse = pre ++ g :: post)
    (hpre : ∀ x ∈ pre, (reg x).release = .ok ())
    (hg : (reg g).release = .error ()) :
    (runRequest reg app fuel path).releasedSeq = pre ++ [g] ∧
    (runRequest reg app fuel path).result = .error (.teardownError g) := by
  have hTD : teardownLoop reg (tryPhase reg fuel hid).1.teardown.reverse =
      (pre ++ [g], some (.teardownError g)) := by
    rw [hsplit]
    exact teardownLoop_fail reg pre g post hpre hg
  simp only [runRequest, hroute, hTD]
  exact ⟨trivial, trivial⟩

/-- C6 witness: the corrected behaviour at the concrete teardown-failure
scenario (teardown visits Q2 first, Q2's release raises, Q1 is skipped). -/
theorem c6_teardown_failure_aborts_rest_witness :
    (runRequest tdReg tdApp 10 "/t").releasedSeq = [] ++ [2] ∧
    (runRequest tdReg tdApp 10 "/t").result = .error (.teardownError 2) :=
  c6_teardown_failure_aborts_rest tdReg tdApp 10 "/t" 3 2 [] [1]
    (by decide) (by decide) (by decide) (by decide)

/-- C7 counterexample: the claim says the caller of the invocation entry
point receives the handler's return value on success.  `run_request` has no
return statement on its success path: with a handler returning `42`, the call
returns `None` (modelled `.ok ()`) and the value `42` appears only in the
printed `status 200` line. -/
theorem c7_result_not_returned_counterexample :
    (runRequest answerReg answerApp 10 "/n").result = .ok () ∧
    (runRequest answerReg answerApp 10 "/n").output =
      [.incoming, .status (.vnat 42), .teardownComplete] :=
  ⟨by decide, by decide⟩

/-- C7 (corrected): on a routed path the caller receives exactly one of:
normal completion returning `None` — the handler's return value appearing
only in the printed status line — or a single propagated failure.  The call
completes normally precisely when the handler produced a value and no
teardown action raised, and every teardown event precedes the return of
control. -/
theorem c7_invoke_outcome (reg : Registry) (app : App) (fuel : Nat)
    (path : String) (hid : Nat)
    (hroute : app.routes.lookup path = some hid) :
    (∀ v, (tryPhase reg fuel hid).2.2 = .ok v →
      OutLine.status v ∈ (runRequest reg app fuel path).output) ∧
    ((runRequest reg app fuel path).result = .ok () ↔
      ((∃ v, (tryPhase reg fuel hid).2.2 = .ok v) ∧
       (teardownLoop reg (tryPhase reg fuel hid).1.teardown.reverse).2 =
         none)) ∧
    ((runRequest reg app fuel path).events =
      (tryPhase reg fuel hid).2.1 ++
        (runRequest reg app fuel path).releasedSeq.map Event.released) := by
  simp only [runRequest, hroute]
  refine ⟨?_, ?_, trivial⟩
  · intro v hv
    simp [hv]
  · cases htry : (tryPhase reg fuel hid).2.2 with
    | error e =>
      cases htd :
          (teardownLoop reg (tryPhase reg fuel hid).1.teardown.reverse).2 <;>
        simp [htry, htd]
    | ok v =>
      cases htd :
          (teardownLoop reg (tryPhase reg fuel hid).1.teardown.reverse).2 <;>
        simp [htry, htd]

/-- C7 witness: at the concrete `answerHandler` application, the status line
carries the handler's value `42` and the call completes returning `None`. -/
theorem c7_invoke_outcome_witness :
    OutLine.status (Value.vnat 42) ∈
      (runRequest answerReg answerApp 10 "/n").output ∧
    (runRequest answerReg answerApp 10 "/n").result = .ok () := by
  have h := c7_invoke_outcome answerReg answerApp 10 "/n" 0 (by decide)
  exact ⟨h.1 (Value.vnat 42) (by decide),
    h.2.1.mpr ⟨⟨Value.vnat 42, by decide⟩, by decide⟩⟩

/-- C8 (confirmed): a parameter that is not dependency-marked (in particular
one that is neither defaulted nor supplied — `run_request` supplies no
caller arguments) makes resolution fail at resolution time, with the
`KeyError` raised by the resolver's cache-write line, rather than being
silently ignored: a resolution that returns successfully had no plain
parameter in its list, and a plain parameter at the front fails immediately
with `KeyError(name)`. -/
theorem c8_unresolvable_parameter_fails :
    (∀ (reg : Registry) (fuel : Nat) (ps : List Param)
      (kwargs : List (String × Value)) (sc : Scope) (log : List Event)
      (m : List (String × Value)),
      (solveLoop reg fuel ps kwargs sc log).2.2 = .ok m →
      ∀ name, Param.plain name ∉ ps) ∧
    (∀ (reg : Registry) (fuel : Nat) (name : String) (rest : List Param)
      (kwargs : List (String × Value)) (sc : Scope) (log : List Event),
      (solveLoop reg fuel (Param.plain name :: rest) kwargs sc log).2.2 =
        .error (.keyError name)) := by
  refine ⟨?_, ?_⟩
  · intro reg fuel ps kwargs sc log m hok name
    exact solveLoop_ok_no_plain reg fuel ps kwargs sc log m hok name
  · intro reg fuel name rest kwargs sc log
    cases fuel <;> rfl

/-- C8 witness: the demo resolution succeeds with the user argument resolved,
and therefore (by the theorem) the demo handler has no plain parameter. -/
theorem c8_unresolvable_parameter_fails_witness :
    Param.plain "x" ∉ getCurrentUserProfile.params :=
  c8_unresolvable_parameter_fails.1 demoReg 10 getCurrentUserProfile.params
    [] { cache := [], teardown := [] } []
    [("user", Value.vdict2 "username" (.vstr "zoya") "id" (.vnat 100))]
    (by decide) "x"

/-- C9 (confirmed): requests do not share per-request state.  Each
`run_request` call builds its resolution from the empty scope created at
lines 72-73 (first conjunct, definitional in the embedding because the scope
is a local of `run_request`), and in a sequence of requests every request's
entire observable result is a function of its own path only — dropping or
changing earlier requests cannot change it (second conjunct), so every
provider re-executes in each request and no cache entry or teardown handle
crosses requests. -/
theorem c9_requests_independent :
    (∀ (reg : Registry) (fuel : Nat) (f : Provider),
      resolvePhase reg fuel f =
        solveLoop reg fuel f.params [] { cache := [], teardown := [] } []) ∧
    (∀ (reg : Registry) (app : App) (fuel : Nat) (p : String)
      (rest : List String),
      runRequests reg app fuel (p :: rest) =
        runRequest reg app fuel p :: runRequests reg app fuel rest) :=
  ⟨fun _ _ _ => rfl, fun _ _ _ _ _ => rfl⟩

/-- C10 (confirmed): a request for a path with no registered handler prints
the 404 report and returns `None` immediately: no scope is created, no
dependency is resolved, no provider or handler is invoked, no teardown runs,
and no status line (result) is produced. -/
theorem c10_unrouted_path_no_scope (reg : Registry) (app : App) (fuel : Nat)
    (path : String) (hroute : app.routes.lookup path = none) :
    runRequest reg app fuel path =
      { output := [.incoming, .notFound], events := [], finalScope := none,
        releasedSeq := [], result := .ok () } := by
  simp [runRequest, hroute]

/-- C10 witness: the demo application has no route for `"/missing"`. -/
theorem c10_unrouted_path_no_scope_witness :
    runRequest demoReg demoApp 10 "/missing" =
      { output := [.incoming, .notFound], events := [], finalScope := none,
        releasedSeq := [], result := .ok () } :=
  c10_unrouted_path_no_scope demoReg demoApp 10 "/missing" (by decide)
